import Mathlib

/-!
Verification development for the `issue-labeler` repository.

The JavaScript sources are embedded shallowly:

* GitHub issues become the `Issue` structure; the `updated_at` string of the
  source is modelled by its parsed value `Option Int` (the result of
  `new Date(s).getTime()`, with `none` standing for an `Invalid Date`,
  i.e. a missing or unparseable timestamp).
* `Array.prototype.sort(cmp)` is modelled as a stable insertion sort whose
  "take the earlier element first" test is `cmp a b <= 0`; per the ECMAScript
  SortCompare a `NaN` comparator result is coerced to `+0` and therefore
  treated as a tie.  For consistent comparators this is exactly the
  (stable) result required by the language specification.
* Fallible code returns `Except`; `console` output is traced as `LogEntry`
  lists; outcomes of external HTTP calls (the model endpoint, the GitHub
  label endpoint) and of file-system writes are passed in explicitly.
-/

namespace IssueLabeler

/-! ## Data model: labels and issues (src/src/github-api.js, data shapes) -/

/-- JS `String.prototype.toLowerCase()` on the ASCII label names this system
manipulates: per-character lowercasing. -/
def jsToLower (s : String) : String := String.mk (s.data.map Char.toLower)

/-- A label as delivered by the tracker: either a bare string or an object
with a `name` field (`{name: string}`). -/
inductive JLabel where
  | str (s : String)
  | obj (name : String)
deriving DecidableEq, Repr

/-- The per-label lowercased name used by `label-issue.js` when it builds
`existingLabelNames`: `typeof label === 'string' ? label.toLowerCase() :
label.name.toLowerCase()`. -/
def JLabel.lowerName : JLabel → String
  | .str s => jsToLower s
  | .obj n => jsToLower n

/-- A GitHub issue, with `updated_at` already parsed: `some t` is a valid
timestamp `t = new Date(s).getTime()`, `none` is an Invalid Date. -/
structure Issue where
  number : Nat
  title : String
  html_url : String
  labels : List JLabel
  updated_at : Option Int
deriving DecidableEq, Repr

/-- The label test of `getIssuesWithLabel` (src/src/github-api.js:626-629):
a string label matches by lowercased equality, an object label matches when
its `name` is truthy and equal lowercased.  An object label with empty
`name` is falsy, so the second disjunct fails. -/
def labelMatches (target : String) : JLabel → Bool
  | .str s => jsToLower s == jsToLower target
  | .obj n => !(n == "") && (jsToLower n == jsToLower target)

/-- JS `getIssuesWithLabel(issues, label)` (src/src/github-api.js:621-631),
array-filtering case; in the typed model `issue.labels` is always a list,
so the `issue.labels &&` truthiness guard is vacuous. -/
def getIssuesWithLabel (issues : List Issue) (label : String) : List Issue :=
  issues.filter (fun issue => issue.labels.any (labelMatches label))

/-! ## The JavaScript sort -/

/-- The comparator `new Date(a.updated_at) - new Date(b.updated_at)`
(src/src/task-cycler.js:42-44).  If either date is invalid the subtraction
yields `NaN`, which `Array.prototype.sort` coerces to `+0`. -/
def jsCompare (a b : Issue) : Int :=
  match a.updated_at, b.updated_at with
  | some x, some y => x - y
  | _, _ => 0

/-- JS `cmp a b <= 0`: the sorted order keeps `a` no later than `b`. -/
def jsLe (a b : Issue) : Bool := jsCompare a b ≤ 0

/-- Stable insertion of `a` into an already ordered list: `a` is placed
before the first element `b` with `le a b`. -/
def jsOrderedInsert (le : α → α → Bool) (a : α) : List α → List α
  | [] => [a]
  | b :: l => if le a b then a :: b :: l else b :: jsOrderedInsert le a l

/-- Stable sort used as the model of `Array.prototype.sort(cmp)`: elements
are inserted from the right, so an element is placed before every element of
equal rank that occurs later in the input. -/
def jsSort (le : α → α → Bool) : List α → List α
  | [] => []
  | b :: l => jsOrderedInsert le b (jsSort le l)

/-! ## Priority Resolver (src/src/task-cycler.js, `selectNextIssue`) -/

/-- JS `selectNextIssue` (src/src/task-cycler.js:21-45) with the fetched issue
list passed in: empty check, urgent filter, important filter, then
`issues.sort((a,b) => new Date(a.updated_at) - new Date(b.updated_at))[0]`. -/
def selectNextIssue (issues : List Issue) : Option Issue :=
  if issues.isEmpty then none
  else
    let urgentIssues := getIssuesWithLabel issues "urgent"
    let issues1 := if urgentIssues.isEmpty then issues else urgentIssues
    let importantIssues := getIssuesWithLabel issues1 "important"
    let issues2 := if importantIssues.isEmpty then issues1 else importantIssues
    (jsSort jsLe issues2).head?

/-! ### The reference cascade, from the specification's words -/

/-- Modelled from the spec: an issue "carrying label `l`" — `labels` is a set
of case-insensitive strings (spec §3), so membership compares lowercased
names. -/
def specHasLabel (issue : Issue) (l : String) : Bool :=
  issue.labels.any (fun lab => lab.lowerName == jsToLower l)

/-- Modelled from the spec: ascending order on `updatedAt`; only invoked on
issues with parseable timestamps (the tie for `none` is irrelevant there and
chosen as `true`). -/
def specLe (a b : Issue) : Bool :=
  match a.updated_at, b.updated_at with
  | some x, some y => x ≤ y
  | _, _ => true

/-- Modelled from the spec (§4.1): the reference cascade — replace the
working set by the `urgent` subset if non-empty, then by the `important`
subset if non-empty, then take the first element of a stable ascending sort
by `updatedAt`. -/
def selectNextSpec (issues : List Issue) : Option Issue :=
  if issues.isEmpty then none
  else
    let stageA := issues.filter (fun i => specHasLabel i "urgent")
    let set1 := if stageA.isEmpty then issues else stageA
    let stageB := set1.filter (fun i => specHasLabel i "important")
    let set2 := if stageB.isEmpty then set1 else stageB
    (jsSort specLe set2).head?

/-! ## Lemmas about the embedded sort -/

theorem mem_jsOrderedInsert {le : α → α → Bool} {a x : α} (l : List α) :
    x ∈ jsOrderedInsert le a l ↔ x = a ∨ x ∈ l := by
  induction l with
  | nil => simp [jsOrderedInsert]
  | cons b l ih =>
    by_cases h : le a b
    · simp [jsOrderedInsert, h]
    · simp [jsOrderedInsert, h, ih]
      tauto

theorem mem_jsSort {le : α → α → Bool} {x : α} (l : List α) :
    x ∈ jsSort le l ↔ x ∈ l := by
  induction l with
  | nil => simp [jsSort]
  | cons b l ih => simp [jsSort, mem_jsOrderedInsert, ih]

theorem length_jsOrderedInsert (le : α → α → Bool) (a : α) (l : List α) :
    (jsOrderedInsert le a l).length = l.length + 1 := by
  induction l with
  | nil => rfl
  | cons b l ih => by_cases h : le a b <;> simp [jsOrderedInsert, h, ih]

theorem length_jsSort (le : α → α → Bool) (l : List α) :
    (jsSort le l).length = l.length := by
  induction l with
  | nil => rfl
  | cons b l ih => simp [jsSort, length_jsOrderedInsert, ih]

theorem jsOrderedInsert_congr {le₁ le₂ : α → α → Bool} {a : α} {l : List α}
    (h : ∀ y ∈ l, le₁ a y = le₂ a y) :
    jsOrderedInsert le₁ a l = jsOrderedInsert le₂ a l := by
  induction l with
  | nil => rfl
  | cons b l ih =>
    have hb : le₁ a b = le₂ a b := h b (by simp)
    by_cases hc : le₂ a b
    · simp [jsOrderedInsert, hb, hc]
    · simp only [jsOrderedInsert, hb, hc, if_neg, Bool.false_eq_true,
        not_false_iff, if_false]
      exact congrArg _ (ih fun y hy => h y (by simp [hy]))

theorem jsSort_congr {le₁ le₂ : α → α → Bool} {l : List α}
    (h : ∀ x ∈ l, ∀ y ∈ l, le₁ x y = le₂ x y) :
    jsSort le₁ l = jsSort le₂ l := by
  induction l with
  | nil => rfl
  | cons b l ih =>
    show jsOrderedInsert le₁ b (jsSort le₁ l) = jsOrderedInsert le₂ b (jsSort le₂ l)
    rw [ih fun x hx y hy => h x (by simp [hx]) y (by simp [hy])]
    exact jsOrderedInsert_congr fun y hy =>
      h b (by simp) y (by simp [(mem_jsSort l).mp hy])

theorem jsSort_ne_nil {le : α → α → Bool} {l : List α} (h : l ≠ []) :
    jsSort le l ≠ [] := by
  intro hc
  have := length_jsSort le l
  rw [hc] at this
  exact h (List.length_eq_zero.mp this.symm)

/-! ## C1: the Priority Resolver implements the reference cascade -/

theorem labelMatches_eq_lowerName (t : String) (ht : ¬ jsToLower t = "") :
    labelMatches t = fun lab => lab.lowerName == jsToLower t := by
  funext lab
  cases lab with
  | str s => rfl
  | obj n =>
    by_cases hn : n = ""
    · subst hn
      have : (jsToLower "" == jsToLower t) = false := by
        simpa [jsToLower] using fun hc => ht hc.symm
      simp [labelMatches, JLabel.lowerName, this]
    · simp [labelMatches, JLabel.lowerName, hn]

theorem getIssuesWithLabel_eq_specFilter (issues : List Issue) (t : String)
    (ht : ¬ jsToLower t = "") :
    getIssuesWithLabel issues t = issues.filter (fun i => specHasLabel i t) := by
  unfold getIssuesWithLabel specHasLabel
  rw [labelMatches_eq_lowerName t ht]

theorem jsLe_eq_specLe {a b : Issue} (ha : a.updated_at.isSome)
    (hb : b.updated_at.isSome) : jsLe a b = specLe a b := by
  obtain ⟨x, hx⟩ := Option.isSome_iff_exists.mp ha
  obtain ⟨y, hy⟩ := Option.isSome_iff_exists.mp hb
  simp [jsLe, jsCompare, specLe, hx, hy, sub_nonpos]

/-- C1. On any issue list whose `updated_at` timestamps all parse, the
Priority Resolver `selectNextIssue` returns `none` exactly when the list is
empty, and otherwise agrees with the reference cascade `selectNextSpec`
(urgent subset if non-empty, then important subset if non-empty, then head
of the stable ascending sort by `updatedAt`, ties in input order). -/
theorem selectNextIssue_matches_spec (issues : List Issue)
    (h : ∀ i ∈ issues, (i.updated_at).isSome) :
    (selectNextIssue issues = none ↔ issues = []) ∧
    selectNextIssue issues = selectNextSpec issues := by
  by_cases hemp : issues = []
  · subst hemp
    exact ⟨by simp [selectNextIssue], rfl⟩
  · have hne : issues.isEmpty = false := by
      cases issues with
      | nil => exact absurd rfl hemp
      | cons a l => rfl
    have hu : ¬ jsToLower "urgent" = "" := by decide
    have hi : ¬ jsToLower "important" = "" := by decide
    -- the two cascades produce the same working set
    have hA : getIssuesWithLabel issues "urgent"
        = issues.filter (fun i => specHasLabel i "urgent") :=
      getIssuesWithLabel_eq_specFilter issues "urgent" hu
    set set1 := (if (issues.filter (fun i => specHasLabel i "urgent")).isEmpty
      then issues else issues.filter (fun i => specHasLabel i "urgent")) with hset1
    have hB : getIssuesWithLabel set1 "important"
        = set1.filter (fun i => specHasLabel i "important") :=
      getIssuesWithLabel_eq_specFilter set1 "important" hi
    set set2 := (if (set1.filter (fun i => specHasLabel i "important")).isEmpty
      then set1 else set1.filter (fun i => specHasLabel i "important")) with hset2
    -- membership in the final working set implies membership in the input
    have hsub1 : ∀ x ∈ set1, x ∈ issues := by
      intro x hx
      rw [hset1] at hx
      by_cases hc : (issues.filter (fun i => specHasLabel i "urgent")).isEmpty
      · rwa [if_pos hc] at hx
      · rw [if_neg hc] at hx
        exact (List.mem_filter.mp hx).1
    have hsub2 : ∀ x ∈ set2, x ∈ issues := by
      intro x hx
      rw [hset2] at hx
      by_cases hc : (set1.filter (fun i => specHasLabel i "important")).isEmpty
      · rw [if_pos hc] at hx
        exact hsub1 x hx
      · rw [if_neg hc] at hx
        exact hsub1 x (List.mem_filter.mp hx).1
    -- the working set is never empty
    have hne1 : set1 ≠ [] := by
      rw [hset1]
      by_cases hc : (issues.filter (fun i => specHasLabel i "urgent")).isEmpty
      · rw [if_pos hc]
        exact hemp
      · rw [if_neg hc]
        intro hnil
        exact hc (by rw [hnil]; rfl)
    have hne2 : set2 ≠ [] := by
      rw [hset2]
      by_cases hc : (set1.filter (fun i => specHasLabel i "important")).isEmpty
      · rw [if_pos hc]
        exact hne1
      · rw [if_neg hc]
        intro hnil
        exact hc (by rw [hnil]; rfl)
    -- the two sorts coincide on the working set
    have hsort : jsSort jsLe set2 = jsSort specLe set2 :=
      jsSort_congr fun x hx y hy =>
        jsLe_eq_specLe (h x (hsub2 x hx)) (h y (hsub2 y hy))
    have hlhs : selectNextIssue issues = (jsSort jsLe set2).head? := by
      simp only [selectNextIssue, hne, hA, ← hset1, hB, ← hset2]
      simp
    have hrhs : selectNextSpec issues = (jsSort specLe set2).head? := by
      simp only [selectNextSpec, hne, ← hset1, ← hset2]
      simp
    refine ⟨?_, by rw [hlhs, hrhs, hsort]⟩
    rw [hlhs]
    exact ⟨fun hcontr =>
        ((jsSort_ne_nil hne2) (List.head?_eq_none_iff.mp hcontr)).elim,
      fun hil => (hemp hil).elim⟩

/-- Witness for C1: the spec's scenario 1 — two unlabeled issues, numbers
101 and 104, the first older. -/
theorem selectNextIssue_matches_spec_witness :
    (∀ i ∈ [Issue.mk 101 "a" "u1" [] (some 100), Issue.mk 104 "b" "u4" [] (some 200)],
      (i.updated_at).isSome = true) ∧
    ((selectNextIssue
        [Issue.mk 101 "a" "u1" [] (some 100), Issue.mk 104 "b" "u4" [] (some 200)] = none ↔
      [Issue.mk 101 "a" "u1" [] (some 100), Issue.mk 104 "b" "u4" [] (some 200)] = []) ∧
    selectNextIssue
        [Issue.mk 101 "a" "u1" [] (some 100), Issue.mk 104 "b" "u4" [] (some 200)]
      = selectNextSpec
        [Issue.mk 101 "a" "u1" [] (some 100), Issue.mk 104 "b" "u4" [] (some 200)]) :=
  ⟨by decide, selectNextIssue_matches_spec _ (by decide)⟩

/-! ## Console traces, and the logging resolver of src/src/select-next.js -/

/-- One line of console output: `console.log` / `console.warn` /
`console.error`. -/
inductive LogEntry where
  | info (msg : String)
  | warn (msg : String)
  | error (msg : String)
deriving DecidableEq, Repr

/-- Is this entry a `console.warn` line? -/
def LogEntry.isWarn : LogEntry → Bool
  | .warn _ => true
  | _ => false

/-- JS `selectNext` (src/src/select-next.js:8-46, the ascending "oldest first"
variant) with the fetched issues passed in and its console output traced.
The function itself returns nothing; its observable result is the issue it
reports (`top`), returned here as the first component.  Dynamic parts of the
log messages (counts, the locale-rendered date, the joined label list) are
abbreviated; what matters is that every line is a `console.log`. -/
def selectNextRun (issues : List Issue) : Option Issue × List LogEntry :=
  if issues.isEmpty then
    (none, [.info "No open issues available for processing."])
  else
    let urgentIssues := getIssuesWithLabel issues "urgent"
    let issues1 := if urgentIssues.isEmpty then issues else urgentIssues
    let log1 : List LogEntry := if urgentIssues.isEmpty then []
      else [.info "Found issues with urgent label. Prioritizing these."]
    let importantIssues := getIssuesWithLabel issues1 "important"
    let issues2 := if importantIssues.isEmpty then issues1 else importantIssues
    let log2 : List LogEntry := if importantIssues.isEmpty then []
      else [.info "Found issues with important label from current filtered set. Prioritizing these."]
    let top := (jsSort jsLe issues2).head?
    (top, log1 ++ log2 ++
      (match top with
       | some t =>
          [.info "Selected issue (oldest updated):",
           .info ("#" ++ toString t.number ++ ": " ++ t.title),
           .info ("URL: " ++ t.html_url),
           .info "Last updated:",
           .info "Labels:"]
       | none => []))

/-! ## C8: issues with an invalid `updated_at` in the sort -/

theorem jsOrderedInsert_front {le : α → α → Bool} {x : α}
    (h : ∀ b, le x b = true) (L : List α) : jsOrderedInsert le x L = x :: L := by
  cases L with
  | nil => rfl
  | cons b l => simp [jsOrderedInsert, h b]

theorem jsOrderedInsert_append {le : α → α → Bool} {z x : α}
    (h : le z x = true) (S T : List α) :
    jsOrderedInsert le z (S ++ x :: T) = jsOrderedInsert le z S ++ x :: T := by
  induction S with
  | nil => simp [jsOrderedInsert, h]
  | cons s S ih =>
    by_cases hc : le z s
    · simp [jsOrderedInsert, hc]
    · simp [jsOrderedInsert, hc, ih]

/-- An element the comparator ties with everything stays exactly where the
input put it: nothing crosses it during the stable sort. -/
theorem jsSort_split {le : α → α → Bool} {x : α}
    (hfront : ∀ b, le x b = true) (hback : ∀ z, le z x = true)
    (l₁ l₂ : List α) :
    jsSort le (l₁ ++ x :: l₂) = jsSort le l₁ ++ x :: jsSort le l₂ := by
  induction l₁ with
  | nil =>
    show jsOrderedInsert le x (jsSort le l₂) = x :: jsSort le l₂
    exact jsOrderedInsert_front hfront _
  | cons z l₁ ih =>
    show jsOrderedInsert le z (jsSort le (l₁ ++ x :: l₂))
        = jsOrderedInsert le z (jsSort le l₁) ++ x :: jsSort le l₂
    rw [ih, jsOrderedInsert_append (hback z)]

theorem jsLe_of_invalid_left {x : Issue} (hx : x.updated_at = none) (b : Issue) :
    jsLe x b = true := by
  simp [jsLe, jsCompare, hx]

theorem jsLe_of_invalid_right {x : Issue} (hx : x.updated_at = none) (b : Issue) :
    jsLe b x = true := by
  cases hb : b.updated_at <;> simp [jsLe, jsCompare, hx, hb]

/-- The "replace only if non-empty" step of the cascade never empties a
non-empty working set. -/
theorem ifEmpty_ne_nil {l fallback : List α} (h : fallback ≠ []) :
    (if l.isEmpty then fallback else l) ≠ [] := by
  split
  · exact h
  · next hc =>
    intro hnil
    exact hc (by rw [hnil]; rfl)

/-- The logging resolver computes the same selection as `selectNextIssue`. -/
theorem selectNextRun_fst (issues : List Issue) :
    (selectNextRun issues).1 = selectNextIssue issues := by
  unfold selectNextRun selectNextIssue
  by_cases h : issues.isEmpty = true
  · rw [if_pos h, if_pos h]
  · rw [if_neg h, if_neg h]

/-- Every console line the resolver emits is a `console.log`, never a
warning. -/
theorem selectNextRun_no_warn (issues : List Issue) :
    (selectNextRun issues).2.filter LogEntry.isWarn = [] := by
  unfold selectNextRun
  by_cases h : issues.isEmpty = true
  · rw [if_pos h]
    rfl
  · rw [if_neg h]
    simp only [List.filter_append]
    split <;> split <;> split <;> rfl

/-- On a non-empty input the resolver still selects an issue. -/
theorem selectNextIssue_isSome {issues : List Issue} (h : issues ≠ []) :
    (selectNextIssue issues).isSome = true := by
  have hne : issues.isEmpty = false := by
    cases issues with
    | nil => exact absurd rfl h
    | cons a l => rfl
  unfold selectNextIssue
  rw [hne]
  simp only [Bool.false_eq_true, if_false]
  have hw : (if (getIssuesWithLabel
        (if (getIssuesWithLabel issues "urgent").isEmpty then issues
          else getIssuesWithLabel issues "urgent") "important").isEmpty
      then (if (getIssuesWithLabel issues "urgent").isEmpty then issues
        else getIssuesWithLabel issues "urgent")
      else getIssuesWithLabel
        (if (getIssuesWithLabel issues "urgent").isEmpty then issues
          else getIssuesWithLabel issues "urgent") "important") ≠ [] :=
    ifEmpty_ne_nil (ifEmpty_ne_nil h)
  have := @jsSort_ne_nil Issue jsLe _ hw
  rw [← Option.ne_none_iff_isSome]
  intro hc
  exact this (List.head?_eq_none_iff.mp hc)

/-- C8 (amended). An issue whose `updated_at` is missing or unparseable
never makes the resolver throw — the comparator yields `NaN`, which the sort
coerces to a tie, so the issue keeps its relative input position through the
final sort (`jsSort` splits around it) and a selection is still produced —
but no warning is logged for it: the resolver's console trace contains no
`console.warn` line. -/
theorem selectNext_invalid_updatedAt (l₁ l₂ : List Issue) (x : Issue)
    (hx : x.updated_at = none) :
    jsSort jsLe (l₁ ++ x :: l₂) = jsSort jsLe l₁ ++ x :: jsSort jsLe l₂ ∧
    (selectNextRun (l₁ ++ x :: l₂)).2.filter LogEntry.isWarn = [] ∧
    ((selectNextRun (l₁ ++ x :: l₂)).1).isSome = true := by
  refine ⟨jsSort_split (jsLe_of_invalid_left hx) (jsLe_of_invalid_right hx) l₁ l₂,
    selectNextRun_no_warn _, ?_⟩
  rw [selectNextRun_fst]
  exact selectNextIssue_isSome (by cases l₁ <;> simp)

/-- Witness for C8 (amended): a single issue with an unparseable
`updated_at`. -/
theorem selectNext_invalid_updatedAt_witness :
    (Issue.mk 7 "t" "u" [] none).updated_at = none ∧
    (jsSort jsLe ([] ++ Issue.mk 7 "t" "u" [] none :: [])
        = jsSort jsLe [] ++ Issue.mk 7 "t" "u" [] none :: jsSort jsLe [] ∧
      (selectNextRun ([] ++ Issue.mk 7 "t" "u" [] none :: [])).2.filter
        LogEntry.isWarn = [] ∧
      ((selectNextRun ([] ++ Issue.mk 7 "t" "u" [] none :: [])).1).isSome = true) :=
  ⟨rfl, selectNext_invalid_updatedAt [] [] _ rfl⟩

/-- Counterexample for C8 as stated: on an issue with unparseable
`updated_at` the resolver logs no warning at all — its entire console trace
for this input is the selection report, with no `console.warn` line — yet the
claim requires a warning to be logged. -/
theorem selectNext_invalid_updatedAt_counterexample :
    (selectNextRun [Issue.mk 7 "t" "u" [] none]).2.filter LogEntry.isWarn = []
      ∧ (selectNextRun [Issue.mk 7 "t" "u" [] none]).1
          = some (Issue.mk 7 "t" "u" [] none) := by
  constructor <;> rfl

/-! ## Batch labeling (src/src/label-issue.js and src/src/label-all-issues.js)

The outcomes of the two external calls made per issue — the model endpoint
(`callModel`) and the label endpoint (`applyLabels`) — are passed in as an
`IssueEnv`: a successful model call carries the already-normalized
`{urgency, importance}` pair, a failed one carries the thrown error's
message (both `callModel` variants rethrow). -/

/-- The normalized output of `callModel`: each field a string or `null`. -/
structure ClassificationResult where
  urgency : Option String
  importance : Option String
deriving DecidableEq, Repr

/-- Outcome of `await callModel(prompt)` for one issue. -/
inductive ModelBehavior where
  | ok (r : ClassificationResult)
  | err (message : String)
deriving DecidableEq, Repr

/-- Outcome of `await applyLabels(...)` for one issue. -/
inductive ApplyBehavior where
  | ok
  | err (message : String)
deriving DecidableEq, Repr

/-- The external-call outcomes relevant to processing one issue. -/
structure IssueEnv where
  model : ModelBehavior
  apply : ApplyBehavior
deriving DecidableEq, Repr

/-- The per-issue result object built by `processIssue`; optional JS fields
are `Option`s, a missing `labels` field is `[]`. -/
structure IssueResult where
  issue : Nat
  success : Bool
  labels : List String
  action : Option String
  reason : Option String
  error : Option String
deriving DecidableEq, Repr

/-- JS `if (urgency) labels.push(urgency)` — push when the value is truthy
(non-null and not the empty string). -/
def pushIfTruthy : Option String → List String
  | some s => if s == "" then [] else [s]
  | none => []

/-- JS `processIssue` (src/src/label-issue.js:48-117): call the model, build
the label list from truthy urgency/importance, fail with
`no_labels_determined` when empty, diff case-insensitively against the
issue's existing labels, skip or apply; the surrounding `try`/`catch` turns
any thrown error into a `processing_error` failure result. -/
def processIssue (issue : Issue) (env : IssueEnv) : IssueResult :=
  match env.model with
  | .err m =>
      { issue := issue.number, success := false, labels := [],
        action := none, reason := some "processing_error", error := some m }
  | .ok r =>
      let labels := pushIfTruthy r.urgency ++ pushIfTruthy r.importance
      if labels.isEmpty then
        { issue := issue.number, success := false, labels := [],
          action := none, reason := some "no_labels_determined", error := none }
      else
        let existingLabelNames := issue.labels.map JLabel.lowerName
        let newLabels := labels.filter
          (fun l => !(existingLabelNames.contains (jsToLower l)))
        if newLabels.isEmpty then
          { issue := issue.number, success := true, labels := labels,
            action := some "skipped_already_labeled", reason := none,
            error := none }
        else
          match env.apply with
          | .err m =>
              { issue := issue.number, success := false, labels := [],
                action := none, reason := some "processing_error",
                error := some m }
          | .ok =>
              { issue := issue.number, success := true, labels := newLabels,
                action := some "labels_applied", reason := none, error := none }

/-- The batch summary object of `labelAllIssues`. -/
structure Summary where
  total : Nat
  success : Nat
  failed : Nat
  skipped : Nat
  labeled : Nat
deriving DecidableEq, Repr

/-- The per-result summary update inside the loop of `labelAllIssues`
(src/src/label-all-issues.js:74-83). -/
def stepSummary (summary : Summary) (result : IssueResult) : Summary :=
  if result.success then
    let s := { summary with success := summary.success + 1 }
    if result.action == some "labels_applied" then
      { s with labeled := s.labeled + 1 }
    else if result.action == some "skipped_already_labeled" then
      { s with skipped := s.skipped + 1 }
    else s
  else { summary with failed := summary.failed + 1 }

/-- The sequential per-issue loop of `labelAllIssues`
(src/src/label-all-issues.js:64-87). -/
def labelAllLoop : List (Issue × IssueEnv) → Summary → List IssueResult →
    Summary × List IssueResult
  | [], summary, results => (summary, results)
  | (issue, env) :: rest, summary, results =>
      let result := processIssue issue env
      labelAllLoop rest (stepSummary summary result) (results ++ [result])

/-- What `labelAllIssues` returns: the early "no open issues" object, or the
summary plus per-issue results. -/
inductive BatchResult where
  | empty (message : String)
  | batch (summary : Summary) (results : List IssueResult)
deriving DecidableEq, Repr

/-- JS `labelAllIssues` (src/src/label-all-issues.js:23-106) with the fetched
issues and their external-call outcomes passed in. -/
def labelAllIssues (items : List (Issue × IssueEnv)) : BatchResult :=
  if items.isEmpty then .empty "No open issues found"
  else
    let r := labelAllLoop items
      { total := items.length, success := 0, failed := 0,
        skipped := 0, labeled := 0 } []
    .batch r.1 r.2

/-! ## C2: the batch invariant -/

theorem stepSummary_sum (summary : Summary) (result : IssueResult) :
    (stepSummary summary result).success + (stepSummary summary result).failed
      = summary.success + summary.failed + 1 ∧
    (stepSummary summary result).total = summary.total := by
  unfold stepSummary
  split
  · split
    · refine ⟨?_, rfl⟩
      simp
      omega
    · split
      · refine ⟨?_, rfl⟩
        simp
        omega
      · refine ⟨?_, rfl⟩
        simp
        omega
  · refine ⟨?_, rfl⟩
    simp
    omega

theorem labelAllLoop_results (items : List (Issue × IssueEnv))
    (summary : Summary) (results : List IssueResult) :
    (labelAllLoop items summary results).2
      = results ++ items.map (fun p => processIssue p.1 p.2) := by
  induction items generalizing summary results with
  | nil => simp [labelAllLoop]
  | cons p rest ih =>
    obtain ⟨issue, env⟩ := p
    simp [labelAllLoop, ih]

theorem labelAllLoop_sum (items : List (Issue × IssueEnv))
    (summary : Summary) (results : List IssueResult) :
    (labelAllLoop items summary results).1.success
        + (labelAllLoop items summary results).1.failed
      = summary.success + summary.failed + items.length ∧
    (labelAllLoop items summary results).1.total = summary.total := by
  induction items generalizing summary results with
  | nil => exact ⟨rfl, rfl⟩
  | cons p rest ih =>
    obtain ⟨issue, env⟩ := p
    show (labelAllLoop rest _ _).1.success + (labelAllLoop rest _ _).1.failed
        = _ ∧ (labelAllLoop rest _ _).1.total = _
    obtain ⟨h1, h2⟩ := ih (stepSummary summary (processIssue issue env))
      (results ++ [processIssue issue env])
    obtain ⟨s1, s2⟩ := stepSummary_sum summary (processIssue issue env)
    refine ⟨?_, by rw [h2, s2]⟩
    rw [h1, s1]
    simp
    omega

/-- C2. For every fetched issue array (with arbitrary per-issue
external-call outcomes), `labelAllIssues` either takes the early "no open
issues" return (exactly when the input is empty) or returns a summary with
`success + failed = total`, `total` the input length, and one result per
input issue — a thrown per-issue error becomes a `processing_error` result,
never an early loop exit. -/
theorem labelAllIssues_invariant (items : List (Issue × IssueEnv)) :
    (match labelAllIssues items with
     | .empty _ => items = []
     | .batch s rs => s.success + s.failed = s.total ∧ s.total = items.length
         ∧ rs.length = items.length) := by
  unfold labelAllIssues
  by_cases h : items.isEmpty = true
  · rw [if_pos h]
    exact List.isEmpty_iff.mp h
  · rw [if_neg h]
    obtain ⟨h1, h2⟩ := labelAllLoop_sum items
      { total := items.length, success := 0, failed := 0,
        skipped := 0, labeled := 0 } []
    refine ⟨?_, h2, ?_⟩
    · rw [h1, h2]
      simp
    · rw [labelAllLoop_results]
      simp

/-! ## C5: rate-limit errors from the model -/

/-- A failed HTTP response as seen by `handleModelError`
(src/src/github-model.js): status code and `retry-after` header if any,
plus the original error message. -/
structure HttpError where
  status : Option Nat
  retryAfter : Option Nat
  message : String
deriving DecidableEq, Repr

/-- The message of the error that escapes `callModel`'s `catch`: for a 429,
`handleModelError` throws a fresh
`Rate limit exceeded. Retry after N seconds.` error (N from the
`retry-after` header, `parseInt(...) || 1`); otherwise the original error is
rethrown. -/
def modelThrownMessage (e : HttpError) : String :=
  match e.status with
  | some 429 =>
      let retryAfter := match e.retryAfter with
        | some n => if n = 0 then 1 else n
        | none => 1
      "Rate limit exceeded. Retry after " ++ toString retryAfter ++ " seconds."
  | _ => e.message

/-- C5 (amended). When the model call for one issue in the batch throws
a rate-limit error, that issue's result is a failure with reason
`processing_error` whose `error` field carries the
`Rate limit exceeded. Retry after N seconds.` message (the code has no
distinct `rate_limit_exceeded` reason), it is counted in `summary.failed`,
and the loop still processes every other issue of the batch. -/
theorem labelAll_rateLimit_continues (pre post : List (Issue × IssueEnv))
    (issue : Issue) (ap : ApplyBehavior) (e : HttpError)
    (he : e.status = some 429) :
    (match labelAllIssues
        (pre ++ (issue, ⟨.err (modelThrownMessage e), ap⟩) :: post) with
     | .empty _ => False
     | .batch s rs =>
        rs[pre.length]? = some
          { issue := issue.number, success := false, labels := [],
            action := none, reason := some "processing_error",
            error := some (modelThrownMessage e) } ∧
        rs.length = pre.length + 1 + post.length ∧
        s.success + s.failed = s.total ∧ s.total = pre.length + 1 + post.length) ∧
    (∃ n : Nat, modelThrownMessage e
      = "Rate limit exceeded. Retry after " ++ toString n ++ " seconds.") := by
  constructor
  · have hne : (pre ++ (issue, ⟨.err (modelThrownMessage e), ap⟩) :: post)
        ≠ [] := by
      cases pre <;> simp
    unfold labelAllIssues
    rw [if_neg (by simp only [List.isEmpty_iff]; exact hne)]
    obtain ⟨h1, h2⟩ := labelAllLoop_sum
      (pre ++ (issue, ⟨.err (modelThrownMessage e), ap⟩) :: post)
      { total := (pre ++ (issue, ⟨.err (modelThrownMessage e), ap⟩) :: post).length,
        success := 0, failed := 0, skipped := 0, labeled := 0 } []
    refine ⟨?_, ?_, ?_, ?_⟩
    · rw [labelAllLoop_results]
      simp only [List.nil_append, List.map_append, List.map_cons]
      rw [List.getElem?_append_right (by simp)]
      simp [processIssue]
    · rw [labelAllLoop_results]
      simp
      omega
    · rw [h1, h2]
      simp
    · rw [h2]
      simp
      omega
  · refine ⟨(match e.retryAfter with
      | some n => if n = 0 then 1 else n
      | none => 1), ?_⟩
    unfold modelThrownMessage
    rw [he]

/-- Witness for C5 (amended): the spec's scenario — a batch of three issues
where the second hits a 429 — instantiated with concrete issues. -/
theorem labelAll_rateLimit_continues_witness :
    (let P : Issue × IssueEnv := (Issue.mk 1 "a" "u1" [] (some 1),
      ⟨.ok ⟨some "urgent", none⟩, .ok⟩)
    let Q : Issue × IssueEnv := (Issue.mk 3 "c" "u3" [] (some 3),
      ⟨.ok ⟨some "urgent", none⟩, .ok⟩)
    let E : HttpError :=
      HttpError.mk (some 429) none "Request failed with status code 429"
    E.status = some 429 ∧
    ((match labelAllIssues
        ([P] ++ (Issue.mk 2 "b" "u2" [] (some 2),
            ⟨.err (modelThrownMessage E), ApplyBehavior.ok⟩) :: [Q]) with
      | .empty _ => False
      | .batch s rs =>
        rs[[P].length]? = some
          { issue := (Issue.mk 2 "b" "u2" [] (some 2)).number, success := false,
            labels := [], action := none, reason := some "processing_error",
            error := some (modelThrownMessage E) } ∧
        rs.length = [P].length + 1 + [Q].length ∧
        s.success + s.failed = s.total ∧
        s.total = [P].length + 1 + [Q].length) ∧
    (∃ n : Nat, modelThrownMessage E
      = "Rate limit exceeded. Retry after " ++ toString n ++ " seconds."))) :=
  ⟨rfl, labelAll_rateLimit_continues
    [(Issue.mk 1 "a" "u1" [] (some 1), ⟨.ok ⟨some "urgent", none⟩, .ok⟩)]
    [(Issue.mk 3 "c" "u3" [] (some 3), ⟨.ok ⟨some "urgent", none⟩, .ok⟩)]
    (Issue.mk 2 "b" "u2" [] (some 2)) ApplyBehavior.ok
    (HttpError.mk (some 429) none "Request failed with status code 429") rfl⟩

/-- Counterexample for C5 as stated: in the batch of three where issue 2
hits the rate limit, the summary is `total=3, success=2, failed=1` and all
three issues are processed — but no result carries reason
`rate_limit_exceeded`; issue 2's reason is `processing_error`. -/
theorem labelAll_rateLimit_counterexample :
    labelAllIssues
        [(Issue.mk 1 "a" "u1" [] (some 1), ⟨.ok ⟨some "urgent", none⟩, .ok⟩),
         (Issue.mk 2 "b" "u2" [] (some 2),
            ⟨.err "Rate limit exceeded. Retry after 1 seconds.", .ok⟩),
         (Issue.mk 3 "c" "u3" [] (some 3), ⟨.ok ⟨some "urgent", none⟩, .ok⟩)]
      = .batch ⟨3, 2, 1, 0, 2⟩
        [⟨1, true, ["urgent"], some "labels_applied", none, none⟩,
         ⟨2, false, [], none, some "processing_error",
            some "Rate limit exceeded. Retry after 1 seconds."⟩,
         ⟨3, true, ["urgent"], some "labels_applied", none, none⟩] ∧
    ([⟨1, true, ["urgent"], some "labels_applied", none, none⟩,
      ⟨2, false, [], none, some "processing_error",
        some "Rate limit exceeded. Retry after 1 seconds."⟩,
      (⟨3, true, ["urgent"], some "labels_applied", none, none⟩ : IssueResult)
     ].map IssueResult.reason).contains (some "rate_limit_exceeded") = false :=
  ⟨by decide, by decide⟩

/-! ## C4: the AllowedLabelSet (config-loader `getLabelConfig`) -/

/-- An entry of the configured `allowedLabels` array: a string or a value of
some other type (filtered out by the loader). -/
inductive ConfigVal where
  | str (s : String)
  | other
deriving DecidableEq, Repr

/-- The `labels` section of `config.js`; `allowedLabels := none` models a
missing or non-array value. -/
structure LabelsConfig where
  allowedLabels : Option (List ConfigVal)
deriving DecidableEq, Repr

/-- The parts of the root config that `getLabelConfig` reads: the optional
`labels` section and `legacy.emptyConfigMeansAllowAll`. -/
structure RootConfig where
  labels : Option LabelsConfig
  legacyEmptyConfigMeansAllowAll : Bool
deriving DecidableEq, Repr

/-- What `getLabelConfig` returns; a missing `isLegacyMode` field is
`false`. -/
structure LabelConfigOut where
  allowedLabels : List String
  isLegacyMode : Bool
deriving DecidableEq, Repr

/-- JS `getLabelConfig` (config-loader, src/unnamed/part_020:86-136): defaults
for a missing section or missing/non-array/empty `allowedLabels` (legacy
mode allows everything via `[]`, otherwise fall back to
`['urgent','important']`), then lowercases and keeps only string entries. -/
def getLabelConfig (c : RootConfig) : LabelConfigOut :=
  let isLegacyMode := c.legacyEmptyConfigMeansAllowAll
  match c.labels with
  | none =>
      if isLegacyMode then ⟨[], true⟩
      else ⟨["urgent", "important"], false⟩
  | some lc =>
      match lc.allowedLabels with
      | none =>
          if isLegacyMode then ⟨[], true⟩
          else ⟨["urgent", "important"], false⟩
      | some arr =>
          if arr.isEmpty && !isLegacyMode then ⟨["urgent", "important"], false⟩
          else if isLegacyMode then ⟨[], true⟩
          else ⟨arr.filterMap (fun v => match v with
              | .str s => some (jsToLower s)
              | .other => none), false⟩

/-- The `labels` section of the repository's `config.js`:
`allowedLabels: ['urgent', 'important']`, no `legacy` key. -/
def configJs : RootConfig :=
  ⟨some ⟨some [.str "urgent", .str "important"]⟩, false⟩

/-- C4 (code evaluation at the failing input). `processIssue` never
consults the AllowedLabelSet: with the repository's own configuration
(allowed = `{urgent, important}`), a model suggestion of `critical` is
applied verbatim (`labels_applied` with label `critical`, which is outside
the allowed set), and no `skipped_no_allowed_labels` outcome exists in the
code. -/
theorem processIssue_ignores_allowedLabelSet :
    processIssue (Issue.mk 5 "Sev" "u" [] (some 10))
        ⟨.ok ⟨some "critical", none⟩, .ok⟩
      = { issue := 5, success := true, labels := ["critical"],
          action := some "labels_applied", reason := none, error := none } ∧
    (getLabelConfig configJs).allowedLabels.contains "critical" = false ∧
    (getLabelConfig configJs).allowedLabels = ["urgent", "important"] :=
  ⟨by decide, by decide, by decide⟩

/-! ## C3: `callModel`'s result normalization (src/lib/github-model.js:58-61,
src/unnamed/part_009:307-310) -/

/-- A JSON value as it comes out of `JSON.parse` of the model response —
the shapes relevant to the `urgency` / `importance` fields. -/
inductive JSValue where
  | null
  | undef
  | str (s : String)
  | num (n : Int)
  | arr
  | obj
deriving DecidableEq, Repr

/-- JavaScript truthiness of such a value (`NaN` numbers aside, which the
relevant inputs never produce). -/
def jsTruthy : JSValue → Bool
  | .null => false
  | .undef => false
  | .str s => !(s == "")
  | .num n => !(n == 0)
  | .arr => true
  | .obj => true

/-- JS `String.prototype.trim()`: strip whitespace from both ends. -/
def jsStrTrim (s : String) : String :=
  String.mk (((s.data.dropWhile Char.isWhitespace).reverse.dropWhile
    Char.isWhitespace).reverse)

/-- JS `v.trim()`: defined for strings only; on any other value the property
is `undefined` and the call raises
`TypeError: v.trim is not a function`. -/
def jsTrim : JSValue → Except String String
  | .str s => .ok (jsStrTrim s)
  | _ => .error "TypeError: value.trim is not a function"

/-- The per-field normalization expression of `callModel`:
`parsedJson.urgency && parsedJson.urgency.trim() !== '' ?
 parsedJson.urgency.trim() : null`. -/
def normalizeField (v : JSValue) : Except String (Option String) :=
  if jsTruthy v then do
    let t ← jsTrim v
    if t == "" then pure none else pure (some t)
  else pure none

/-- The result normalization of `callModel`: both fields, urgency first;
a thrown `TypeError` escapes (the surrounding `catch` rethrows). -/
def callModelNormalize (urgency importance : JSValue) :
    Except String ClassificationResult := do
  let u ← normalizeField urgency
  let i ← normalizeField importance
  pure ⟨u, i⟩

/-- C3 (code evaluation at the failing input). A numeric `urgency` of
`123` in the parsed model response is not coerced to the string `"123"`:
the normalization calls `.trim()` on the number and throws a `TypeError`,
so `callModel` crashes — while the falsy values (`null`, `undefined`,
empty and whitespace-only strings) do normalize to absent as documented. -/
theorem callModel_crashes_on_number :
    callModelNormalize (.num 123) (.str "high")
        = .error "TypeError: value.trim is not a function" ∧
    callModelNormalize .null .undef = .ok ⟨none, none⟩ ∧
    callModelNormalize (.str "") (.str "   ") = .ok ⟨none, none⟩ ∧
    callModelNormalize (.str " urgent ") (.str "important")
        = .ok ⟨some "urgent", some "important"⟩ ∧
    callModelNormalize .obj (.str "high")
        = .error "TypeError: value.trim is not a function" :=
  ⟨rfl, rfl, rfl, rfl, rfl⟩

/-! ## Session State Machine

Two implementations coexist in the repository: `src/src/state-manager.js`
(whose `writeState` rethrows write errors) and the variant embedded in
`src/src/select-next.js` (whose `writeState` returns a boolean and keeps an
in-memory backup in `global.__stateBackup`).  Both are embedded; the file
system and the outcome of `fs.writeFile` are explicit. -/

/-- The session mode. -/
inductive Mode where
  | work
  | break'
deriving DecidableEq, Repr

/-- JS `state.mode === 'work' ? 'break' : 'work'`. -/
def flipMode (m : Mode) : Mode := if m = .work then .break' else .work

/-- The persisted session state. -/
structure SessionState where
  mode : Mode
  lastBreakIndex : Int
deriving DecidableEq, Repr

/-- JS `DEFAULT_STATE = { mode: 'break', lastBreakIndex: -1 }`. -/
def DEFAULT_STATE : SessionState := ⟨.break', -1⟩

/-- Whether `fs.writeFile` succeeds, with the error's `code` and `message`
when it does not. -/
inductive WriteOutcome where
  | success
  | failure (code : String) (message : String)
deriving DecidableEq, Repr

/-- The file system as `state-manager.js` sees it: the state file
(`none` = absent or unparseable) and the console trace. -/
structure FS where
  file : Option SessionState
  log : List LogEntry
deriving DecidableEq, Repr

/-- JS `writeState` (src/src/state-manager.js:34-42): log success, or log the
error and **rethrow** it.  The console lines of the failing path travel
with the exception and are dropped from the trace in this model. -/
def writeStateSM (state : SessionState) (w : WriteOutcome) (fs : FS) :
    Except String FS :=
  match w with
  | .success => .ok { fs with
      file := some state
      log := fs.log ++ [.info "State updated successfully"] }
  | .failure _ m => .error m

/-- JS `readState` (src/src/state-manager.js:18-27): parse the file, or write
and return the default state. -/
def readStateSM (w : WriteOutcome) (fs : FS) :
    Except String (SessionState × FS) :=
  match fs.file with
  | some st => .ok (st, fs)
  | none => do
      let fs' ← writeStateSM DEFAULT_STATE w fs
      .ok (DEFAULT_STATE, fs')

/-- JS `toggleSessionMode` (src/src/state-manager.js:48-58). -/
def toggleSessionModeSM (w : WriteOutcome) (fs : FS) :
    Except String (SessionState × FS) := do
  let r ← readStateSM w fs
  let state := { r.1 with mode := flipMode r.1.mode }
  let fs' ← writeStateSM state w r.2
  .ok (state, fs')

/-- JS `updateBreakIndex` (src/src/state-manager.js:65-70): no validation. -/
def updateBreakIndexSM (index : Int) (w : WriteOutcome) (fs : FS) :
    Except String (SessionState × FS) := do
  let r ← readStateSM w fs
  let state := { r.1 with lastBreakIndex := index }
  let fs' ← writeStateSM state w r.2
  .ok (state, fs')

/-- The world of the `select-next.js` variant: state file, the
`global.__stateBackup` fallback, console trace. -/
structure World where
  file : Option SessionState
  backup : Option SessionState
  log : List LogEntry
deriving DecidableEq, Repr

/-- JS `writeState` of the variant (select-next.js:143-161): returns `true` on
success; on failure logs the error, stores an in-memory backup when the
directory is missing (`ENOENT`), warns, and returns `false`. -/
def writeStateSN (state : SessionState) (w : WriteOutcome) (world : World) :
    Bool × World :=
  match w with
  | .success =>
      (true, { world with
        file := some state
        log := world.log ++ [.info "State updated successfully"] })
  | .failure code m =>
      let world1 : World := { world with
        log := world.log ++ [LogEntry.error ("Error writing state file: " ++ m)] }
      if code == "ENOENT" then
        (false, { world1 with
          backup := some state
          log := world1.log ++
            [.warn "Directory does not exist, attempting to create backup in memory"] })
      else if code == "EACCES" then
        (false, { world1 with log := world1.log ++
          [.warn "Permission denied when writing state file"] })
      else
        (false, { world1 with log := world1.log ++
          [.warn ("File system error (" ++ code ++ "): " ++ m)] })

/-- JS `readState` of the variant (select-next.js:118-137): prefer the
in-memory backup, then the file, else produce the default state (keeping it
in memory when even the default cannot be written). -/
def readStateSN (w : WriteOutcome) (world : World) : SessionState × World :=
  match world.backup with
  | some st =>
      (st, { world with log := world.log ++ [.info "Using in-memory state backup"] })
  | none =>
    match world.file with
    | some st => (st, world)
    | none =>
        let r := writeStateSN DEFAULT_STATE w world
        if r.1 then (DEFAULT_STATE, r.2)
        else (DEFAULT_STATE, { r.2 with
          backup := some DEFAULT_STATE
          log := r.2.log ++
            [.warn "Could not write default state file, using in-memory state"] })

/-- JS `toggleSessionMode` of the variant (select-next.js:167-182): toggles,
writes, and on a failed write warns, keeps the updated state in the backup,
and still returns it. -/
def toggleSessionModeSN (w : WriteOutcome) (world : World) :
    SessionState × World :=
  let r := readStateSN w world
  let state := { r.1 with mode := flipMode r.1.mode }
  let wr := writeStateSN state w r.2
  if wr.1 then (state, wr.2)
  else (state, { wr.2 with
    backup := some state
    log := wr.2.log ++
      [.warn "Failed to persist state change to disk, continuing with in-memory state"] })

/-- JS `updateBreakIndex` of the variant (select-next.js:189-206): rejects an
index below `-1` (the `typeof index !== 'number'` half of the guard is
vacuous in the typed model), otherwise like the toggle. -/
def updateBreakIndexSN (index : Int) (w : WriteOutcome) (world : World) :
    Except String (SessionState × World) :=
  if index < -1 then .error "Invalid break index value"
  else
    let r := readStateSN w world
    let state := { r.1 with lastBreakIndex := index }
    let wr := writeStateSN state w r.2
    if wr.1 then .ok (state, wr.2)
    else .ok (state, { wr.2 with
      backup := some state
      log := wr.2.log ++
        [.warn "Failed to persist break index to disk, continuing with in-memory state"] })

/-! ## C6: persistence behaviour of the session toggle -/

/-- C6 (amended). Every toggle writes the resulting state to the state
file before returning when the write succeeds; but on a write failure the
two implementations diverge: `state-manager.js`'s `toggleSessionMode`
propagates the write error (the toggle is fatal — it does **not** return
the updated state), while the `select-next.js` variant returns the updated
state successfully, retains it in the in-memory backup, and emits a
warning. -/
theorem toggleSessionMode_persistence (st : SessionState) (fs : FS)
    (world : World) (code m : String) (hfs : fs.file = some st)
    (hw : world.file = some st) (hb : world.backup = none) :
    (∃ fs', toggleSessionModeSM .success fs
        = .ok ({ st with mode := flipMode st.mode }, fs') ∧
      fs'.file = some { st with mode := flipMode st.mode }) ∧
    toggleSessionModeSM (.failure code m) fs = .error m ∧
    ((toggleSessionModeSN (.failure code m) world).1
        = { st with mode := flipMode st.mode } ∧
      (toggleSessionModeSN (.failure code m) world).2.backup
        = some { st with mode := flipMode st.mode } ∧
      (toggleSessionModeSN (.failure code m) world).2.log.filter
        LogEntry.isWarn ≠ []) := by
  refine ⟨⟨{ fs with
      file := some { st with mode := flipMode st.mode }
      log := fs.log ++ [.info "State updated successfully"] }, ?_, rfl⟩,
    ?_, ?_, ?_, ?_⟩
  · simp only [toggleSessionModeSM, readStateSM, writeStateSM, hfs]
    rfl
  · simp only [toggleSessionModeSM, readStateSM, writeStateSM, hfs]
    rfl
  · unfold toggleSessionModeSN readStateSN writeStateSN
    rw [hb, hw]
    dsimp only
    split_ifs <;> simp_all [LogEntry.isWarn]
  · unfold toggleSessionModeSN readStateSN writeStateSN
    rw [hb, hw]
    dsimp only
    split_ifs <;> simp_all [LogEntry.isWarn]
  · unfold toggleSessionModeSN readStateSN writeStateSN
    rw [hb, hw]
    dsimp only
    split_ifs <;> simp_all [LogEntry.isWarn]

/-- Witness for C6 (amended): a concrete `work` state with index 0 and an
`EACCES` write failure. -/
theorem toggleSessionMode_persistence_witness :
    (FS.mk (some ⟨.work, 0⟩) []).file = some (⟨.work, 0⟩ : SessionState) ∧
    (World.mk (some ⟨.work, 0⟩) none []).file
      = some (⟨.work, 0⟩ : SessionState) ∧
    (World.mk (some ⟨.work, 0⟩) none []).backup = none ∧
    ((∃ fs', toggleSessionModeSM .success (FS.mk (some ⟨.work, 0⟩) [])
        = .ok ({ (⟨.work, 0⟩ : SessionState) with
            mode := flipMode (⟨.work, 0⟩ : SessionState).mode }, fs') ∧
      fs'.file = some { (⟨.work, 0⟩ : SessionState) with
        mode := flipMode (⟨.work, 0⟩ : SessionState).mode }) ∧
    toggleSessionModeSM (.failure "EACCES" "permission denied")
        (FS.mk (some ⟨.work, 0⟩) []) = .error "permission denied" ∧
    ((toggleSessionModeSN (.failure "EACCES" "permission denied")
          (World.mk (some ⟨.work, 0⟩) none [])).1
        = { (⟨.work, 0⟩ : SessionState) with
            mode := flipMode (⟨.work, 0⟩ : SessionState).mode } ∧
      (toggleSessionModeSN (.failure "EACCES" "permission denied")
          (World.mk (some ⟨.work, 0⟩) none [])).2.backup
        = some { (⟨.work, 0⟩ : SessionState) with
            mode := flipMode (⟨.work, 0⟩ : SessionState).mode } ∧
      (toggleSessionModeSN (.failure "EACCES" "permission denied")
          (World.mk (some ⟨.work, 0⟩) none [])).2.log.filter
        LogEntry.isWarn ≠ [])) :=
  ⟨rfl, rfl, rfl,
    toggleSessionMode_persistence ⟨.work, 0⟩ (FS.mk (some ⟨.work, 0⟩) [])
      (World.mk (some ⟨.work, 0⟩) none []) "EACCES" "permission denied"
      rfl rfl rfl⟩

/-- Counterexample for C6 as stated: with the state file holding
`{mode: work, lastBreakIndex: 0}` and a failing write (`EACCES`),
`state-manager.js`'s `toggleSessionMode` throws instead of returning the
updated state — the claim's "the function still returns the updated state
successfully (it does not throw)" is false for this implementation. -/
theorem toggleSessionMode_write_failure_throws :
    toggleSessionModeSM (.failure "EACCES" "permission denied")
        (FS.mk (some ⟨.work, 0⟩) [])
      = .error "permission denied" := rfl

/-! ## C10: frame effects of the state mutators -/

/-- C10. Each state mutator touches only its designated field: whenever
`state-manager.js`'s `toggleSessionMode` returns, the mode is flipped and
`lastBreakIndex` is untouched; whenever either `updateBreakIndex` (the
unvalidated `state-manager.js` one, or the validated `select-next.js`
variant on an index ≥ −1) returns, `lastBreakIndex` is the given index and
the mode is untouched. -/
theorem stateMutators_frame (st : SessionState) (fs : FS) (world : World)
    (i : Int) (w : WriteOutcome) (hfs : fs.file = some st)
    (hw : world.file = some st) (hb : world.backup = none) (hi : -1 ≤ i) :
    (∀ st' fs', toggleSessionModeSM w fs = .ok (st', fs') →
      st'.mode = flipMode st.mode ∧ st'.lastBreakIndex = st.lastBreakIndex) ∧
    (∀ st' fs', updateBreakIndexSM i w fs = .ok (st', fs') →
      st'.lastBreakIndex = i ∧ st'.mode = st.mode) ∧
    (∀ st' world', updateBreakIndexSN i w world = .ok (st', world') →
      st'.lastBreakIndex = i ∧ st'.mode = st.mode) := by
  refine ⟨?_, ?_, ?_⟩
  · intro st' fs' h
    cases w with
    | success =>
      simp only [toggleSessionModeSM, readStateSM, writeStateSM, hfs] at h
      injection h with hpair
      injection hpair with h1 h2
      subst h1
      exact ⟨rfl, rfl⟩
    | failure code m =>
      simp only [toggleSessionModeSM, readStateSM, writeStateSM, hfs] at h
      injection h
  · intro st' fs' h
    cases w with
    | success =>
      simp only [updateBreakIndexSM, readStateSM, writeStateSM, hfs] at h
      injection h with hpair
      injection hpair with h1 h2
      subst h1
      exact ⟨rfl, rfl⟩
    | failure code m =>
      simp only [updateBreakIndexSM, readStateSM, writeStateSM, hfs] at h
      injection h
  · intro st' world' h
    unfold updateBreakIndexSN readStateSN writeStateSN at h
    rw [if_neg (by omega), hb, hw] at h
    cases w with
    | success =>
      injection h with hpair
      injection hpair with h1 h2
      subst h1
      exact ⟨rfl, rfl⟩
    | failure code m =>
      dsimp only at h
      split_ifs at h <;>
      · injection h with hpair
        injection hpair with h1 h2
        subst h1
        exact ⟨rfl, rfl⟩

/-- Witness for C10: a concrete state, index 3, successful writes. -/
theorem stateMutators_frame_witness :
    (FS.mk (some ⟨.break', 2⟩) []).file = some (⟨.break', 2⟩ : SessionState) ∧
    (World.mk (some ⟨.break', 2⟩) none []).file
      = some (⟨.break', 2⟩ : SessionState) ∧
    (World.mk (some ⟨.break', 2⟩) none []).backup = none ∧
    (-1 : Int) ≤ 3 ∧
    ((∀ st' fs', toggleSessionModeSM .success (FS.mk (some ⟨.break', 2⟩) [])
        = .ok (st', fs') →
      st'.mode = flipMode (⟨.break', 2⟩ : SessionState).mode ∧
      st'.lastBreakIndex = (⟨.break', 2⟩ : SessionState).lastBreakIndex) ∧
    (∀ st' fs', updateBreakIndexSM 3 .success (FS.mk (some ⟨.break', 2⟩) [])
        = .ok (st', fs') →
      st'.lastBreakIndex = 3 ∧ st'.mode = (⟨.break', 2⟩ : SessionState).mode) ∧
    (∀ st' world', updateBreakIndexSN 3 .success
        (World.mk (some ⟨.break', 2⟩) none []) = .ok (st', world') →
      st'.lastBreakIndex = 3 ∧ st'.mode = (⟨.break', 2⟩ : SessionState).mode)) :=
  ⟨rfl, rfl, rfl, by decide,
    stateMutators_frame ⟨.break', 2⟩ (FS.mk (some ⟨.break', 2⟩) [])
      (World.mk (some ⟨.break', 2⟩) none []) 3 .success rfl rfl rfl (by decide)⟩

/-! ## C7: the break suggestion rotation (src/src/break-manager.js:9-28)

The persistence round-trip through `readState`/`updateBreakIndex` is
threaded as an explicit `SessionState` (writes assumed to succeed, which is
the only case the claim describes). -/

/-- JS `getNextBreakSuggestion`: guard the empty list with the sentinel, else
advance `(currentIndex + 1) % length` (JavaScript `%` is the truncated
remainder, `Int.tmod`), persist the new index, and return the suggestion at
it (`none` models the `undefined` of an out-of-range read; the
`typeof lastBreakIndex === 'number'` guard is vacuous in the typed
model). -/
def getNextBreakSuggestion (breakSuggestions : List String)
    (state : SessionState) : Option String × SessionState :=
  let currentIndex := state.lastBreakIndex
  if breakSuggestions.length == 0 then
    (some "No break suggestions available", state)
  else
    let nextIndex := Int.tmod (currentIndex + 1) breakSuggestions.length
    (if 0 ≤ nextIndex then breakSuggestions[nextIndex.toNat]? else none,
      { state with lastBreakIndex := nextIndex })

/-- The state after `k` consecutive break transitions. -/
def iterBreak (breakSuggestions : List String) (state : SessionState) :
    Nat → SessionState
  | 0 => state
  | k + 1 =>
      (getNextBreakSuggestion breakSuggestions
        (iterBreak breakSuggestions state k)).2

theorem getNextBreak_step (suggestions : List String) (st : SessionState)
    (hN : 0 < suggestions.length) (h : -1 ≤ st.lastBreakIndex) :
    getNextBreakSuggestion suggestions st
      = (suggestions[((st.lastBreakIndex + 1)
            % (suggestions.length : Int)).toNat]?,
        { st with lastBreakIndex :=
            (st.lastBreakIndex + 1) % (suggestions.length : Int) }) := by
  have hne : (suggestions.length : Int) ≠ 0 := by
    simp only [ne_eq, Int.natCast_eq_zero]
    omega
  unfold getNextBreakSuggestion
  rw [if_neg (by simp only [beq_iff_eq]; omega)]
  dsimp only
  rw [Int.tmod_eq_emod (by omega) (by positivity),
    if_pos (Int.emod_nonneg _ hne)]

theorem iterBreak_idx (suggestions : List String) (st : SessionState)
    (hN : 0 < suggestions.length) (h : -1 ≤ st.lastBreakIndex) (k : Nat) :
    (iterBreak suggestions st (k + 1)).lastBreakIndex
      = (st.lastBreakIndex + 1 + k) % (suggestions.length : Int) := by
  have hne : (suggestions.length : Int) ≠ 0 := by
    simp only [ne_eq, Int.natCast_eq_zero]
    omega
  induction k with
  | zero =>
    show (getNextBreakSuggestion suggestions st).2.lastBreakIndex = _
    rw [getNextBreak_step suggestions st hN h]
    simp
  | succ k ih =>
    show (getNextBreakSuggestion suggestions
      (iterBreak suggestions st (k + 1))).2.lastBreakIndex = _
    have hprev : -1 ≤ (iterBreak suggestions st (k + 1)).lastBreakIndex := by
      rw [ih]
      have := Int.emod_nonneg (st.lastBreakIndex + 1 + k) hne
      omega
    rw [getNextBreak_step suggestions _ hN hprev, ih]
    show (_ % _ + 1) % _ = _
    rw [Int.emod_add_emod]
    congr 1
    push_cast
    ring

/-- C7. With a non-empty suggestion list of length `N` and a persisted
index ≥ −1 (its initial value), a break transition advances the index to
`(lastBreakIndex + 1) mod N` and returns the suggestion at that index; doing
`N + 1` consecutive transitions returns the same suggestion as the first;
and on an empty list the call returns the sentinel without touching the
index. -/
theorem getNextBreakSuggestion_rotation (suggestions : List String)
    (st : SessionState) (hN : 0 < suggestions.length)
    (h : -1 ≤ st.lastBreakIndex) :
    ((getNextBreakSuggestion suggestions st).2.lastBreakIndex
        = (st.lastBreakIndex + 1) % (suggestions.length : Int) ∧
      (getNextBreakSuggestion suggestions st).1
        = suggestions[((st.lastBreakIndex + 1)
            % (suggestions.length : Int)).toNat]?) ∧
    (getNextBreakSuggestion suggestions
        (iterBreak suggestions st suggestions.length)).1
      = (getNextBreakSuggestion suggestions st).1 ∧
    (∀ s : SessionState, getNextBreakSuggestion [] s
        = (some "No break suggestions available", s)) := by
  have hne : (suggestions.length : Int) ≠ 0 := by
    simp only [ne_eq, Int.natCast_eq_zero]
    omega
  refine ⟨?_, ?_, fun s => rfl⟩
  · rw [getNextBreak_step suggestions st hN h]
    exact ⟨rfl, rfl⟩
  · obtain ⟨N, hNsucc⟩ : ∃ N, suggestions.length = N + 1 :=
      ⟨suggestions.length - 1, by omega⟩
    have hidxN : (iterBreak suggestions st suggestions.length).lastBreakIndex
        = (st.lastBreakIndex + 1 + N) % (suggestions.length : Int) := by
      conv_lhs => rw [hNsucc]
      exact iterBreak_idx suggestions st hN h N
    have hprev : -1 ≤ (iterBreak suggestions st suggestions.length).lastBreakIndex := by
      rw [hidxN]
      have := Int.emod_nonneg (st.lastBreakIndex + 1 + N) hne
      omega
    rw [getNextBreak_step suggestions _ hN hprev,
      getNextBreak_step suggestions st hN h, hidxN]
    have harith : ((st.lastBreakIndex + 1 + N) % (suggestions.length : Int) + 1)
        % (suggestions.length : Int)
        = (st.lastBreakIndex + 1) % (suggestions.length : Int) := by
      rw [Int.emod_add_emod]
      have hcast : (N : Int) + 1 = (suggestions.length : Int) := by
        omega
      calc (st.lastBreakIndex + 1 + N + 1) % (suggestions.length : Int)
          = (st.lastBreakIndex + 1 + (suggestions.length : Int) * 1)
              % (suggestions.length : Int) := by
            congr 1
            omega
        _ = (st.lastBreakIndex + 1) % (suggestions.length : Int) :=
            Int.add_mul_emod_self_left (st.lastBreakIndex + 1)
              ((suggestions.length : Int)) 1
    rw [harith]

/-- Witness for C7: three suggestions, the default starting index −1. -/
theorem getNextBreakSuggestion_rotation_witness :
    0 < (["A", "B", "C"] : List String).length ∧
    -1 ≤ (SessionState.mk .work (-1)).lastBreakIndex ∧
    (((getNextBreakSuggestion ["A", "B", "C"]
          (SessionState.mk .work (-1))).2.lastBreakIndex
        = ((SessionState.mk .work (-1)).lastBreakIndex + 1)
            % ((["A", "B", "C"] : List String).length : Int) ∧
      (getNextBreakSuggestion ["A", "B", "C"] (SessionState.mk .work (-1))).1
        = ["A", "B", "C"][(((SessionState.mk .work (-1)).lastBreakIndex + 1)
            % ((["A", "B", "C"] : List String).length : Int)).toNat]?) ∧
    (getNextBreakSuggestion ["A", "B", "C"]
        (iterBreak ["A", "B", "C"] (SessionState.mk .work (-1))
          (["A", "B", "C"] : List String).length)).1
      = (getNextBreakSuggestion ["A", "B", "C"]
          (SessionState.mk .work (-1))).1 ∧
    (∀ s : SessionState, getNextBreakSuggestion [] s
        = (some "No break suggestions available", s))) :=
  ⟨by decide, by decide,
    getNextBreakSuggestion_rotation ["A", "B", "C"]
      (SessionState.mk .work (-1)) (by decide) (by decide)⟩

/-! ## C9: `validatePathSegment` (src/src/github-api.js:111-142) -/

/-- A character of the allow-list `/^[\w.-]+$/` (`\w` is ASCII
alphanumerics plus underscore). -/
def isAllowedPathChar (c : Char) : Bool :=
  c.isAlphanum || c == '_' || c == '.' || c == '-'

/-- JS `/^[\w.-]+$/.test(s)`. -/
def matchesAllowedPattern (s : String) : Bool :=
  !(s.data.isEmpty) && s.data.all isAllowedPathChar

/-- JS `s.includes('..')`. -/
def hasDoubleDotAux : List Char → Bool
  | c1 :: c2 :: rest => (c1 == '.' && c2 == '.') || hasDoubleDotAux (c2 :: rest)
  | _ => false

/-- JS `s.includes('..')` on a string. -/
def hasDoubleDot (s : String) : Bool := hasDoubleDotAux s.data

/-- JS `s.includes(c)` for a single character. -/
def jsContainsChar (s : String) (c : Char) : Bool :=
  s.data.any (fun x => x == c)

/-- JS `s.startsWith('.')`. -/
def jsStartsWithDot (s : String) : Bool :=
  match s.data with
  | c :: _ => c == '.'
  | [] => false

/-- The argument of `validatePathSegment`: `null`, `undefined`, a value of
another type, or a string. -/
inductive PathInput where
  | null
  | undef
  | nonString
  | str (s : String)
deriving DecidableEq, Repr

/-- JS `validatePathSegment` (src/src/github-api.js:111-142): reject
null/undefined/non-strings, **trim**, reject empty, reject `..`, `/`, `\`
and a leading `.` as traversal, reject anything outside the allow-list
pattern, and return the **trimmed** segment. -/
def validatePathSegment : PathInput → Except String String
  | .null => .error "Path segment cannot be null or undefined"
  | .undef => .error "Path segment cannot be null or undefined"
  | .nonString => .error "Invalid path segment: Expected string"
  | .str segment =>
    let normalizedSegment := jsStrTrim segment
    if normalizedSegment.data.length == 0 then
      .error "Path segment cannot be empty"
    else if hasDoubleDot normalizedSegment
        || jsContainsChar normalizedSegment '/'
        || jsContainsChar normalizedSegment '\\'
        || jsStartsWithDot normalizedSegment then
      .error "Potential path traversal detected"
    else if !(matchesAllowedPattern normalizedSegment) then
      .error "Path segments must only contain alphanumeric characters, dashes, underscores, or periods."
    else .ok normalizedSegment

/-- The exact acceptance condition of `validatePathSegment`, phrased on the
trimmed string. -/
def acceptedPathSegment (t : String) : Bool :=
  matchesAllowedPattern t && !(jsStartsWithDot t) && !(hasDoubleDot t)

theorem allowed_char_not_slash {c : Char} (h : isAllowedPathChar c = true) :
    (c == '/') = false ∧ (c == '\\') = false := by
  constructor <;>
  · rw [Bool.eq_false_iff]
    intro hc
    rw [beq_iff_eq] at hc
    subst hc
    exact absurd h (by decide)

theorem allowed_not_slash {t : String}
    (h : matchesAllowedPattern t = true) :
    jsContainsChar t '/' = false ∧ jsContainsChar t '\\' = false := by
  have hall := List.all_eq_true.mp ((Bool.and_eq_true _ _).mp h).2
  refine ⟨?_, ?_⟩
  · rw [jsContainsChar, Bool.eq_false_iff]
    intro hcon
    obtain ⟨c, hc, hbc⟩ := List.any_eq_true.mp hcon
    rw [(allowed_char_not_slash (hall c hc)).1] at hbc
    exact Bool.false_ne_true hbc
  · rw [jsContainsChar, Bool.eq_false_iff]
    intro hcon
    obtain ⟨c, hc, hbc⟩ := List.any_eq_true.mp hcon
    rw [(allowed_char_not_slash (hall c hc)).2] at hbc
    exact Bool.false_ne_true hbc

theorem matchesAllowedPattern_ne_empty {t : String}
    (h : matchesAllowedPattern t = true) : (t.data.length == 0) = false := by
  have h1 := ((Bool.and_eq_true _ _).mp h).1
  rw [Bool.not_eq_true'] at h1
  cases hd : t.data with
  | nil =>
    rw [hd] at h1
    simp at h1
  | cons a l =>
    rfl

/-- C9 (amended). `validatePathSegment` never returns anything but the
**trimmed** segment — surrounding whitespace is the one silent
sanitization — and it accepts exactly the trimmed segments that are
non-empty, consist only of allowed characters, do not start with a period,
and do not contain `..`; everything else (including `null`, `undefined` and
non-string input) raises a validation error. -/
theorem validatePathSegment_characterization (s : String) :
    (validatePathSegment (.str s) = .ok (jsStrTrim s)
      ↔ acceptedPathSegment (jsStrTrim s) = true) ∧
    (∀ t, validatePathSegment (.str s) = .ok t → t = jsStrTrim s) ∧
    (validatePathSegment .null).isOk = false ∧
    (validatePathSegment .undef).isOk = false ∧
    (validatePathSegment .nonString).isOk = false := by
  refine ⟨⟨?_, ?_⟩, ?_, rfl, rfl, rfl⟩
  · intro h
    unfold validatePathSegment at h
    dsimp only at h
    split_ifs at h with h1 h2 h3
    have hpat : matchesAllowedPattern (jsStrTrim s) = true := by
      revert h3
      cases matchesAllowedPattern (jsStrTrim s) <;> simp
    have h2' : (hasDoubleDot (jsStrTrim s)
        || jsContainsChar (jsStrTrim s) '/'
        || jsContainsChar (jsStrTrim s) '\\'
        || jsStartsWithDot (jsStrTrim s)) = false := Bool.eq_false_iff.mpr h2
    simp only [Bool.or_eq_false_iff] at h2'
    simp [acceptedPathSegment, hpat, h2'.1.1.1, h2'.2]
  · intro hacc
    simp only [acceptedPathSegment, Bool.and_eq_true] at hacc
    obtain ⟨⟨hpat, hdot⟩, hdd⟩ := hacc
    rw [Bool.not_eq_true'] at hdot hdd
    obtain ⟨hsl, hbs⟩ := allowed_not_slash hpat
    have h1 := matchesAllowedPattern_ne_empty hpat
    unfold validatePathSegment
    dsimp only
    rw [if_neg (by rw [h1]; exact Bool.false_ne_true),
      if_neg (by rw [hdd, hsl, hbs, hdot]; exact Bool.false_ne_true),
      if_neg (by rw [hpat]; exact Bool.false_ne_true)]
  · intro t h
    unfold validatePathSegment at h
    dsimp only at h
    split_ifs at h
    injection h with h'
    exact h'.symm

/-- Witness for C9 (amended): the segment `issue-labeler`, which is
accepted unchanged. -/
theorem validatePathSegment_characterization_witness :
    ((validatePathSegment (.str "issue-labeler")
          = .ok (jsStrTrim "issue-labeler")
        ↔ acceptedPathSegment (jsStrTrim "issue-labeler") = true) ∧
      (∀ t, validatePathSegment (.str "issue-labeler") = .ok t →
        t = jsStrTrim "issue-labeler") ∧
      (validatePathSegment .null).isOk = false ∧
      (validatePathSegment .undef).isOk = false ∧
      (validatePathSegment .nonString).isOk = false) ∧
    validatePathSegment (.str "issue-labeler") = .ok "issue-labeler" :=
  ⟨validatePathSegment_characterization "issue-labeler", rfl⟩

/-- Counterexample for C9 as stated: the whitespace-padded segment
`" dmitriz "` neither is returned unchanged nor raises a validation
error — it is silently sanitized to the different accepted value
`"dmitriz"`. -/
theorem validatePathSegment_trims_counterexample :
    validatePathSegment (.str " dmitriz ") = .ok "dmitriz" ∧
    "dmitriz" ≠ " dmitriz " := ⟨rfl, by decide⟩

end IssueLabeler
